import Mathlib

/-!
# Verification of the Opal-Tools sample-size calculator

Shallow embedding of `src/Sample-Size-Calculator-OCP/sample_size_calc.ts` and of
`src/Sample-Size-Calculator-OCP/src/functions/OpalToolFunction.ts` (the
`calculate_sample_size` tool), together with proofs of the specification claims
about them.

JavaScript numbers are modelled by `JSNum`: an exact real (`fin`), the two
infinities, or `NaN`.  Finite values carry a mathematical real instead of a
64-bit float, so floating-point rounding error is idealised away; the
NaN/infinity propagation rules of JavaScript arithmetic, which all of the
edge-case claims are about, are modelled exactly.  A finite zero is treated as
JavaScript's `+0` (the code never produces a negative zero in a denominator:
every divisor on a reachable path is an absolute value, a power of ten, or a
count).
-/

/-- A JavaScript number: a finite real, `Infinity`, `-Infinity`, or `NaN`. -/
inductive JSNum : Type where
  | fin (x : ℝ)
  | inf
  | ninf
  | nan

namespace JSNum

open scoped Classical in
noncomputable instance : DecidableEq JSNum := fun _ _ => Classical.propDecidable _

/-- JavaScript `+`. -/
noncomputable def add : JSNum → JSNum → JSNum
  | nan, _ => nan
  | _, nan => nan
  | fin x, fin y => fin (x + y)
  | fin _, inf => inf
  | fin _, ninf => ninf
  | inf, fin _ => inf
  | inf, inf => inf
  | inf, ninf => nan
  | ninf, fin _ => ninf
  | ninf, inf => nan
  | ninf, ninf => ninf

/-- JavaScript `-`. -/
noncomputable def sub : JSNum → JSNum → JSNum
  | nan, _ => nan
  | _, nan => nan
  | fin x, fin y => fin (x - y)
  | fin _, inf => ninf
  | fin _, ninf => inf
  | inf, fin _ => inf
  | inf, inf => nan
  | inf, ninf => inf
  | ninf, fin _ => ninf
  | ninf, inf => ninf
  | ninf, ninf => nan

open scoped Classical in
/-- JavaScript `*`.  `0 * ±Infinity` is `NaN`. -/
noncomputable def mul : JSNum → JSNum → JSNum
  | nan, _ => nan
  | _, nan => nan
  | fin x, fin y => fin (x * y)
  | fin x, inf => if x = 0 then nan else if 0 < x then inf else ninf
  | fin x, ninf => if x = 0 then nan else if 0 < x then ninf else inf
  | inf, fin y => if y = 0 then nan else if 0 < y then inf else ninf
  | ninf, fin y => if y = 0 then nan else if 0 < y then ninf else inf
  | inf, inf => inf
  | inf, ninf => ninf
  | ninf, inf => ninf
  | ninf, ninf => inf

open scoped Classical in
/-- JavaScript `/`.  Division by (positive) zero of a nonzero finite value gives
an infinity, `0/0` and `±Infinity/±Infinity` give `NaN`. -/
noncomputable def div : JSNum → JSNum → JSNum
  | nan, _ => nan
  | _, nan => nan
  | fin x, fin y =>
      if y = 0 then (if x = 0 then nan else if 0 < x then inf else ninf)
      else fin (x / y)
  | fin _, inf => fin 0
  | fin _, ninf => fin 0
  | inf, fin y => if y < 0 then ninf else inf
  | ninf, fin y => if y < 0 then inf else ninf
  | inf, inf => nan
  | inf, ninf => nan
  | ninf, inf => nan
  | ninf, ninf => nan

/-- JavaScript `Math.abs`. -/
noncomputable def abs : JSNum → JSNum
  | fin x => fin |x|
  | nan => nan
  | _ => inf

/-- JavaScript `Math.floor` (idealised to the mathematical floor on finite
values). -/
noncomputable def floor : JSNum → JSNum
  | fin x => fin (⌊x⌋ : ℝ)
  | inf => inf
  | ninf => ninf
  | nan => nan

/-- JavaScript `Math.round`: round half towards `+Infinity`, i.e. `⌊x + 1/2⌋`
on finite values. -/
noncomputable def round : JSNum → JSNum
  | fin x => fin (⌊x + 1/2⌋ : ℝ)
  | inf => inf
  | ninf => ninf
  | nan => nan

open scoped Classical in
/-- JavaScript `Math.sqrt`: `NaN` on negative arguments. -/
noncomputable def sqrt : JSNum → JSNum
  | fin x => if x < 0 then nan else fin (Real.sqrt x)
  | inf => inf
  | ninf => nan
  | nan => nan

open scoped Classical in
/-- JavaScript `Math.log`: `NaN` on negative arguments, `-Infinity` at `0`. -/
noncomputable def log : JSNum → JSNum
  | fin x => if x < 0 then nan else if x = 0 then ninf else fin (Real.log x)
  | inf => inf
  | ninf => nan
  | nan => nan

/-- JavaScript `Math.pow` with base `10` (the only use in the source):
`10 ** Infinity = Infinity`, `10 ** -Infinity = 0`, `10 ** NaN = NaN`. -/
noncomputable def pow10 : JSNum → JSNum
  | fin y => fin ((10 : ℝ) ^ y)
  | inf => inf
  | ninf => fin 0
  | nan => nan

/-- JavaScript `>=`.  Any comparison with `NaN` is false. -/
def jsGe : JSNum → JSNum → Prop
  | fin x, fin y => y ≤ x
  | fin _, inf => False
  | fin _, ninf => True
  | inf, nan => False
  | inf, _ => True
  | ninf, ninf => True
  | ninf, _ => False
  | nan, _ => False
  | _, nan => False

/-- JavaScript `<`.  Any comparison with `NaN` is false. -/
def jsLt : JSNum → JSNum → Prop
  | fin x, fin y => x < y
  | fin _, inf => True
  | fin _, ninf => False
  | inf, _ => False
  | ninf, nan => False
  | ninf, ninf => False
  | ninf, _ => True
  | nan, _ => False
  | _, nan => False

/-- JavaScript `>`.  Any comparison with `NaN` is false. -/
def jsGt : JSNum → JSNum → Prop
  | fin x, fin y => y < x
  | fin _, ninf => True
  | inf, nan => False
  | inf, inf => False
  | inf, _ => True
  | _, _ => False

/-- JavaScript `isFinite`. -/
def isFinite : JSNum → Prop
  | fin _ => True
  | _ => False

/-- Models `isNumeric` from `sample_size_calc.ts` lines 10-12
(`!isNaN(parseFloat(n)) && isFinite(n)`): on a number argument this holds
exactly when the number is finite. -/
def isNumeric : JSNum → Prop
  | fin _ => True
  | _ => False

/-- JavaScript `Math.max` of two values (`NaN` if either argument is `NaN`);
used only to state the spec's `max(|estimate1|, |estimate2|)` reading. -/
noncomputable def jsMax : JSNum → JSNum → JSNum
  | nan, _ => nan
  | _, nan => nan
  | fin x, fin y => fin (max x y)
  | inf, _ => inf
  | _, inf => inf
  | fin x, ninf => fin x
  | ninf, y => y

end JSNum

open JSNum

/-- `sample_size_calc.ts` lines 14-19 (identical to `OpalToolFunction.ts`
lines 225-230):

```
const s = Math.round(n);
const t = Math.pow(10, 2 - Math.floor(Math.log(s) / Math.LN10) - 1);
const a = Math.round(s * t) / t;
return Math.round(a);
```

`Math.LN10` is the constant `ln 10`.  The locals `s`, `t` and `a` are written
out in full (`s = Math.round n`, `t` the power of ten, `a = Math.round(s*t)/t`). -/
noncomputable def roundToSigFigs (n : JSNum) : JSNum :=
  JSNum.round
    (JSNum.div
      (JSNum.round (mul (JSNum.round n)
        (pow10 (sub (sub (fin 2)
          (JSNum.floor (JSNum.div (JSNum.log (JSNum.round n)) (fin (Real.log 10))))) (fin 1)))))
      (pow10 (sub (sub (fin 2)
        (JSNum.floor (JSNum.div (JSNum.log (JSNum.round n)) (fin (Real.log 10))))) (fin 1))))

/-- The specification's three-significant-figure rounding formula (§4 step 8):
`s = round(x)`, `t = 10^(3 - floor(log10 s) - 1)`, result `round(round(s*t)/t)`,
stated over the reals; declared only to be compared with the code's
`roundToSigFigs`. -/
noncomputable def specRound3 (x : ℝ) : ℝ :=
  ((⌊(⌊(⌊x + 1/2⌋ : ℝ) * (10:ℝ)^((3:ℤ) - ⌊Real.log (⌊x + 1/2⌋ : ℝ) / Real.log 10⌋ - 1) + 1/2⌋ : ℝ) /
    (10:ℝ)^((3:ℤ) - ⌊Real.log (⌊x + 1/2⌋ : ℝ) / Real.log 10⌋ - 1) + 1/2⌋ : ℤ) : ℝ)

/-- `sample_size_calc.ts` line 27: `absoluteMDE = conversionDecimal * effectDecimal`. -/
noncomputable def absoluteMDE (conversionDecimal effectDecimal : JSNum) : JSNum :=
  mul conversionDecimal effectDecimal

/-- `sample_size_calc.ts` line 29: `c2 = conversionDecimal - absoluteMDE`. -/
noncomputable def armDown (conversionDecimal effectDecimal : JSNum) : JSNum :=
  sub conversionDecimal (absoluteMDE conversionDecimal effectDecimal)

/-- `sample_size_calc.ts` line 30: `c3 = conversionDecimal + absoluteMDE`. -/
noncomputable def armUp (conversionDecimal effectDecimal : JSNum) : JSNum :=
  add conversionDecimal (absoluteMDE conversionDecimal effectDecimal)

/-- `sample_size_calc.ts` line 31: `theta = Math.abs(absoluteMDE)`. -/
noncomputable def theta (conversionDecimal effectDecimal : JSNum) : JSNum :=
  JSNum.abs (absoluteMDE conversionDecimal effectDecimal)

/-- `sample_size_calc.ts` lines 36-37: `c1 * (1 - c1) + arm * (1 - arm)` where
`arm` is `c2` (for `variance1`) or `c3` (for `variance2`). -/
noncomputable def varianceOf (c1 arm : JSNum) : JSNum :=
  add (mul c1 (sub (fin 1) c1)) (mul arm (sub (fin 1) arm))

/-- `sample_size_calc.ts` lines 40-52, common form of the two candidates:
`(2 * (1 - significance) * v * Math.log(1 + Math.sqrt(v) / theta)) / (theta * theta)`
where `significance = 1 - significanceDecimal` (line 26), so the leading factor
is `1 - (1 - significanceDecimal)`. -/
noncomputable def estFrom (significanceDecimal v th : JSNum) : JSNum :=
  JSNum.div
    (mul (mul (mul (fin 2) (sub (fin 1) (sub (fin 1) significanceDecimal))) v)
      (JSNum.log (add (fin 1) (JSNum.div (JSNum.sqrt v) th))))
    (mul th th)

/-- `sample_size_calc.ts` lines 40-45: `sampleEstimate1`, built from `variance1`
(the `c2` arm). -/
noncomputable def sampleEstimate1 (conversionDecimal effectDecimal significanceDecimal : JSNum) : JSNum :=
  estFrom significanceDecimal
    (varianceOf conversionDecimal (armDown conversionDecimal effectDecimal))
    (theta conversionDecimal effectDecimal)

/-- `sample_size_calc.ts` lines 47-52: `sampleEstimate2`, built from `variance2`
(the `c3` arm). -/
noncomputable def sampleEstimate2 (conversionDecimal effectDecimal significanceDecimal : JSNum) : JSNum :=
  estFrom significanceDecimal
    (varianceOf conversionDecimal (armUp conversionDecimal effectDecimal))
    (theta conversionDecimal effectDecimal)

open scoped Classical in
/-- `sample_size_calc.ts` lines 54-58: keep `sampleEstimate1` when
`Math.abs(sampleEstimate1) >= Math.abs(sampleEstimate2)`, else `sampleEstimate2`. -/
noncomputable def selectedEstimate (conversionDecimal effectDecimal significanceDecimal : JSNum) : JSNum :=
  if jsGe (JSNum.abs (sampleEstimate1 conversionDecimal effectDecimal significanceDecimal))
          (JSNum.abs (sampleEstimate2 conversionDecimal effectDecimal significanceDecimal))
  then sampleEstimate1 conversionDecimal effectDecimal significanceDecimal
  else sampleEstimate2 conversionDecimal effectDecimal significanceDecimal

open scoped Classical in
/-- `sample_size_calc.ts` lines 21-68, `sampleSizeEstimate`: validation
(lines 60-66) followed by rounding (line 67).  `none` models the `null` return. -/
noncomputable def sampleSizeEstimate (conversionDecimal effectDecimal significanceDecimal : JSNum) :
    Option JSNum :=
  if ¬ isNumeric (selectedEstimate conversionDecimal effectDecimal significanceDecimal) ∨
     ¬ isFinite (selectedEstimate conversionDecimal effectDecimal significanceDecimal) ∨
     jsLt (selectedEstimate conversionDecimal effectDecimal significanceDecimal) (fin 0)
  then none
  else some (roundToSigFigs (selectedEstimate conversionDecimal effectDecimal significanceDecimal))

/-- `OpalToolFunction.ts` lines 108-112: the record handed to
`calculateSampleSizeInternal`. -/
structure ProcessedModels where
  effect : JSNum
  significance : JSNum
  conversion : JSNum

/-- `OpalToolFunction.ts` lines 175-219, `calculateSampleSizeInternal`.  Its
body repeats `sampleSizeEstimate` from `sample_size_calc.ts` verbatim except
for line 177, which computes `significance = 1 - significance / 100` instead of
`1 - significanceDecimal`; so it is exactly `sampleSizeEstimate` applied to
`significance / 100`. -/
noncomputable def calculateSampleSizeInternal (processedModels : ProcessedModels) : Option JSNum :=
  sampleSizeEstimate processedModels.conversion processedModels.effect
    (JSNum.div processedModels.significance (fin 100))

open scoped Classical in
/-- JavaScript `params.x || default` on a number: the default is used when the
value is (positive or negative) zero or `NaN` (`OpalToolFunction.ts`
lines 99-104). -/
noncomputable def jsOrDefault (x d : JSNum) : JSNum :=
  if x = fin 0 ∨ x = nan then d else x

/-- JavaScript `String.prototype.toLowerCase`, modelled characterwise. -/
def jsToLower (s : String) : String := ⟨s.data.map Char.toLower⟩

/-- JavaScript `s.charAt(0).toUpperCase() + s.slice(1)`, modelled characterwise. -/
def jsCapitalize (s : String) : String := ⟨(s.data.take 1).map Char.toUpper ++ s.data.drop 1⟩

/-- The `data` record returned by `calculateSampleSize` on success
(`OpalToolFunction.ts` lines 146-164).  The `formula` field, a version string
read from packaging metadata on disk, is omitted. -/
structure SampleSizeData where
  sampleSizePerVariant : JSNum
  totalSampleSize : JSNum
  daysToRun : JSNum
  weeksToRun : JSNum
  monthsToRun : JSNum
  variantMultiplier : JSNum
  visitorsCount : JSNum
  visitorsFrequency : String
  visitorsCountDays : JSNum
  baselineRate : JSNum
  expectedLift : JSNum
  significance : JSNum
  variants : JSNum

/-- Result of the `calculate_sample_size` tool: `{success: false, message}` or
`{success: true, data}`. -/
inductive CalcResult : Type where
  | failure (message : String)
  | success (data : SampleSizeData)

open scoped Classical in
/-- `OpalToolFunction.ts` lines 94-173, `calculateSampleSize`.  The body is
straight-line arithmetic and string handling, so the `try/catch` wrapper has no
reachable failure path beyond the `sampleSize === null` check.  Parameters are
the six tool parameters; defaults are applied with `||` (lines 99-104). -/
noncomputable def calculateSampleSize (baselineRateP mdeP significanceP variantsP visitorsP : JSNum)
    (frequencyP : String) : CalcResult :=
  let baselineRate := jsOrDefault baselineRateP (fin (1/10))
  let mde := jsOrDefault mdeP (fin (1/20))
  let significance := jsOrDefault significanceP (fin 95)
  let variants := jsOrDefault variantsP (fin 2)
  let visitorsCount := jsOrDefault visitorsP (fin 10000)
  let visitorsFrequency := if frequencyP = "" then "monthly" else frequencyP
  match calculateSampleSizeInternal
      { effect := mde, significance := significance, conversion := baselineRate } with
  | none => CalcResult.failure "Invalid calculation parameters - unable to compute sample size"
  | some sampleSize =>
    let variantMultiplier := if jsGt variants (fin 2) then variants else fin 1
    let adjustedSampleSize := mul sampleSize variantMultiplier
    let totalSampleSize := mul adjustedSampleSize variants
    let visitorsCountDays :=
      if jsToLower visitorsFrequency = "monthly" then JSNum.div visitorsCount (fin 30)
      else if jsToLower visitorsFrequency = "weekly" then JSNum.div visitorsCount (fin 7)
      else if jsToLower visitorsFrequency = "daily" then visitorsCount
      else fin 0
    let visitorsCountDaysPerVariant := JSNum.div visitorsCountDays variants
    let daysToRun := JSNum.div adjustedSampleSize visitorsCountDaysPerVariant
    let weeksToRun := JSNum.div daysToRun (fin 7)
    let monthsToRun := JSNum.div daysToRun (fin 30)
    CalcResult.success
      { sampleSizePerVariant := adjustedSampleSize
        totalSampleSize := JSNum.round totalSampleSize
        daysToRun := JSNum.round daysToRun
        weeksToRun := JSNum.round weeksToRun
        monthsToRun := JSNum.round monthsToRun
        variantMultiplier := JSNum.round variantMultiplier
        visitorsCount := JSNum.round visitorsCount
        visitorsFrequency := jsCapitalize visitorsFrequency
        visitorsCountDays := JSNum.round visitorsCountDays
        baselineRate := baselineRate
        expectedLift := mde
        significance := significance
        variants := variants }

/-! ## Computation rules for the JavaScript number operations -/

namespace JSNum

@[simp] theorem add_fin_fin (x y : ℝ) : add (fin x) (fin y) = fin (x + y) := rfl

@[simp] theorem sub_fin_fin (x y : ℝ) : sub (fin x) (fin y) = fin (x - y) := rfl

@[simp] theorem mul_fin_fin (x y : ℝ) : mul (fin x) (fin y) = fin (x * y) := rfl

@[simp] theorem add_nan_left (a : JSNum) : add nan a = nan := by cases a <;> rfl

@[simp] theorem add_nan_right (a : JSNum) : add a nan = nan := by cases a <;> rfl

@[simp] theorem sub_nan_left (a : JSNum) : sub nan a = nan := by cases a <;> rfl

@[simp] theorem sub_nan_right (a : JSNum) : sub a nan = nan := by cases a <;> rfl

@[simp] theorem mul_nan_left (a : JSNum) : mul nan a = nan := by cases a <;> rfl

@[simp] theorem mul_nan_right (a : JSNum) : mul a nan = nan := by cases a <;> rfl

@[simp] theorem div_nan_left (a : JSNum) : div nan a = nan := by cases a <;> rfl

@[simp] theorem div_nan_right (a : JSNum) : div a nan = nan := by cases a <;> rfl

theorem div_fin_fin {y : ℝ} (x : ℝ) (hy : y ≠ 0) : div (fin x) (fin y) = fin (x / y) := by
  simp [div, hy]

theorem div_fin_zero_pos {x : ℝ} (hx : 0 < x) : div (fin x) (fin 0) = inf := by
  simp [div, hx, hx.ne']

theorem div_ninf_fin {y : ℝ} (hy : ¬ y < 0) : div ninf (fin y) = ninf := by
  simp [div, hy]

theorem div_inf_fin {y : ℝ} (hy : ¬ y < 0) : div inf (fin y) = inf := by
  simp [div, hy]

@[simp] theorem abs_fin (x : ℝ) : JSNum.abs (fin x) = fin |x| := rfl

@[simp] theorem abs_nan : JSNum.abs nan = nan := rfl

theorem sqrt_fin_nonneg {x : ℝ} (hx : 0 ≤ x) : JSNum.sqrt (fin x) = fin (Real.sqrt x) := by
  simp [JSNum.sqrt, not_lt.2 hx]

theorem sqrt_fin_neg {x : ℝ} (hx : x < 0) : JSNum.sqrt (fin x) = nan := by
  simp [JSNum.sqrt, hx]

@[simp] theorem sqrt_nan : JSNum.sqrt nan = nan := rfl

theorem log_fin_pos {x : ℝ} (hx : 0 < x) : JSNum.log (fin x) = fin (Real.log x) := by
  simp [JSNum.log, not_lt.2 hx.le, hx.ne']

@[simp] theorem log_fin_zero : JSNum.log (fin 0) = ninf := by simp [JSNum.log]

@[simp] theorem log_nan : JSNum.log nan = nan := rfl

@[simp] theorem log_inf : JSNum.log inf = inf := rfl

@[simp] theorem round_fin (x : ℝ) : JSNum.round (fin x) = fin (⌊x + 1/2⌋ : ℝ) := rfl

@[simp] theorem round_nan : JSNum.round nan = nan := rfl

@[simp] theorem round_inf : JSNum.round inf = inf := rfl

@[simp] theorem floor_fin (x : ℝ) : JSNum.floor (fin x) = fin (⌊x⌋ : ℝ) := rfl

@[simp] theorem pow10_fin (y : ℝ) : pow10 (fin y) = fin ((10:ℝ) ^ y) := rfl

@[simp] theorem pow10_inf : pow10 inf = inf := rfl

theorem mul_fin_inf_pos {x : ℝ} (hx : 0 < x) : mul (fin x) inf = inf := by
  simp [mul, hx, hx.ne']

theorem mul_fin_inf_neg {x : ℝ} (hx : x < 0) : mul (fin x) inf = ninf := by
  simp [mul, hx.ne, not_lt.2 hx.le]

@[simp] theorem mul_fin_inf_zero : mul (fin 0) inf = nan := by simp [mul]

@[simp] theorem jsGe_nan_left (a : JSNum) : ¬ jsGe nan a := by cases a <;> simp [jsGe]

@[simp] theorem jsGe_nan_right (a : JSNum) : ¬ jsGe a nan := by cases a <;> simp [jsGe]

@[simp] theorem jsGe_fin_fin (x y : ℝ) : jsGe (fin x) (fin y) ↔ y ≤ x := Iff.rfl

@[simp] theorem jsLt_fin_fin (x y : ℝ) : jsLt (fin x) (fin y) ↔ x < y := Iff.rfl

@[simp] theorem isNumeric_fin (x : ℝ) : isNumeric (fin x) := trivial

@[simp] theorem not_isNumeric_nan : ¬ isNumeric nan := fun h => h

@[simp] theorem not_isNumeric_inf : ¬ isNumeric inf := fun h => h

@[simp] theorem not_isNumeric_ninf : ¬ isNumeric ninf := fun h => h

@[simp] theorem isFinite_fin (x : ℝ) : isFinite (fin x) := trivial

@[simp] theorem not_isFinite_nan : ¬ isFinite nan := fun h => h

@[simp] theorem not_isFinite_inf : ¬ isFinite inf := fun h => h

@[simp] theorem not_isFinite_ninf : ¬ isFinite ninf := fun h => h

@[simp] theorem jsMax_nan_left (a : JSNum) : jsMax nan a = nan := by cases a <;> rfl

theorem fin_injective : Function.Injective fin := fun _ _ h => by injection h

@[simp] theorem fin_inj {x y : ℝ} : fin x = fin y ↔ x = y :=
  ⟨fun h => by injection h, fun h => by rw [h]⟩

end JSNum

/-! ## Structure of the estimate pipeline -/

/-- A `NaN` variance makes the whole candidate estimate `NaN`. -/
theorem estFrom_nan_v (sd th : JSNum) : estFrom sd nan th = nan := by
  simp [estFrom]

/-- A negative variance makes the candidate estimate `NaN`
(`Math.sqrt` of a negative number). -/
theorem estFrom_neg_v (sd th : JSNum) {v : ℝ} (hv : v < 0) : estFrom sd (fin v) th = nan := by
  simp [estFrom, JSNum.sqrt_fin_neg hv]

/-- With a nonnegative variance and a positive theta the candidate estimate is
the finite closed-form value. -/
theorem estFrom_fin (sd v th : ℝ) (hv : 0 ≤ v) (hth : 0 < th) :
    estFrom (fin sd) (fin v) (fin th) =
      fin (2 * (1 - (1 - sd)) * v * Real.log (1 + Real.sqrt v / th) / (th * th)) := by
  have h1 : JSNum.sqrt (fin v) = fin (Real.sqrt v) := JSNum.sqrt_fin_nonneg hv
  have h2 : JSNum.div (fin (Real.sqrt v)) (fin th) = fin (Real.sqrt v / th) :=
    JSNum.div_fin_fin _ hth.ne'
  have hpos : (0:ℝ) < 1 + Real.sqrt v / th := by positivity
  have h3 : JSNum.log (fin (1 + Real.sqrt v / th)) = fin (Real.log (1 + Real.sqrt v / th)) :=
    JSNum.log_fin_pos hpos
  have hth2 : th * th ≠ 0 := by positivity
  simp only [estFrom, h1, h2, JSNum.add_fin_fin, h3, JSNum.sub_fin_fin, JSNum.mul_fin_fin,
    JSNum.div_fin_fin _ hth2]

/-- With a positive variance and theta equal to zero the candidate estimate is
non-finite (`sqrt(v)/0 = Infinity` propagates). -/
theorem estFrom_th_zero (sd : ℝ) {v : ℝ} (hv : 0 < v) :
    ¬ JSNum.isNumeric (estFrom (fin sd) (fin v) (fin 0)) := by
  have h1 : JSNum.sqrt (fin v) = fin (Real.sqrt v) := JSNum.sqrt_fin_nonneg hv.le
  have h2 : JSNum.div (fin (Real.sqrt v)) (fin 0) = JSNum.inf :=
    JSNum.div_fin_zero_pos (Real.sqrt_pos.mpr hv)
  have h3 : JSNum.add (fin 1) JSNum.inf = JSNum.inf := rfl
  unfold estFrom
  rw [h1, h2, h3, JSNum.log_inf]
  simp only [JSNum.mul_fin_fin, JSNum.sub_fin_fin, mul_zero]
  rcases lt_trichotomy (2 * (1 - (1 - sd)) * v) 0 with hq | hq | hq
  · rw [JSNum.mul_fin_inf_neg hq, JSNum.div_ninf_fin (by norm_num)]
    exact JSNum.not_isNumeric_ninf
  · rw [hq, JSNum.mul_fin_inf_zero, JSNum.div_nan_left]
    exact JSNum.not_isNumeric_nan
  · rw [JSNum.mul_fin_inf_pos hq, JSNum.div_inf_fin (by norm_num)]
    exact JSNum.not_isNumeric_inf

/-- If `sampleEstimate2` is `NaN`, the `>=` test is false and `NaN` is selected. -/
theorem selected_of_est2_nan {c e s : JSNum} (h : sampleEstimate2 c e s = JSNum.nan) :
    selectedEstimate c e s = JSNum.nan := by
  unfold selectedEstimate
  rw [h, if_neg]
  simp

/-- If `sampleEstimate1` is `NaN`, the `>=` test is false and `sampleEstimate2`
is selected. -/
theorem selected_of_est1_nan {c e s : JSNum} (h : sampleEstimate1 c e s = JSNum.nan) :
    selectedEstimate c e s = sampleEstimate2 c e s := by
  unfold selectedEstimate
  rw [h, if_neg]
  simp

/-- When the two candidates agree, they are selected. -/
theorem selected_of_eq {c e s : JSNum} (h : sampleEstimate1 c e s = sampleEstimate2 c e s) :
    selectedEstimate c e s = sampleEstimate1 c e s := by
  unfold selectedEstimate
  rw [h, ite_self]

/-- Both candidates finite, the first with at least the absolute value of the
second: the first is selected. -/
theorem selected_fin_left {c e s : JSNum} {x1 x2 : ℝ} (h1 : sampleEstimate1 c e s = fin x1)
    (h2 : sampleEstimate2 c e s = fin x2) (hle : |x2| ≤ |x1|) :
    selectedEstimate c e s = fin x1 := by
  unfold selectedEstimate
  rw [h1, h2, if_pos]
  exact hle

/-- Both candidates finite, the second with strictly larger absolute value: the
second is selected. -/
theorem selected_fin_right {c e s : JSNum} {x1 x2 : ℝ} (h1 : sampleEstimate1 c e s = fin x1)
    (h2 : sampleEstimate2 c e s = fin x2) (hlt : |x1| < |x2|) :
    selectedEstimate c e s = fin x2 := by
  unfold selectedEstimate
  rw [h1, h2, if_neg]
  exact not_le.mpr hlt

/-- A non-finite selected estimate fails the validation step. -/
theorem sse_none_of_not_numeric {c e s : JSNum}
    (h : ¬ JSNum.isNumeric (selectedEstimate c e s)) : sampleSizeEstimate c e s = none := by
  unfold sampleSizeEstimate
  exact if_pos (Or.inl h)

/-- A finite nonnegative selected estimate passes validation and is rounded. -/
theorem sse_some_of_fin_nonneg {c e s : JSNum} {x : ℝ}
    (h : selectedEstimate c e s = fin x) (hx : 0 ≤ x) :
    sampleSizeEstimate c e s = some (roundToSigFigs (fin x)) := by
  unfold sampleSizeEstimate
  rw [h, if_neg (by simp [not_lt.2 hx])]

/-- Validation outcome: either `null`, or the rounding of a finite nonnegative
selected estimate. -/
theorem sse_cases (c e s : JSNum) :
    sampleSizeEstimate c e s = none ∨
      ∃ x : ℝ, 0 ≤ x ∧ sampleSizeEstimate c e s = some (roundToSigFigs (fin x)) := by
  cases hsel : selectedEstimate c e s with
  | fin x =>
      rcases le_or_lt 0 x with hx | hx
      · exact Or.inr ⟨x, hx, sse_some_of_fin_nonneg hsel hx⟩
      · left
        unfold sampleSizeEstimate
        rw [hsel, if_pos]
        exact Or.inr (Or.inr hx)
  | inf => exact Or.inl (sse_none_of_not_numeric (by rw [hsel]; exact JSNum.not_isNumeric_inf))
  | ninf => exact Or.inl (sse_none_of_not_numeric (by rw [hsel]; exact JSNum.not_isNumeric_ninf))
  | nan => exact Or.inl (sse_none_of_not_numeric (by rw [hsel]; exact JSNum.not_isNumeric_nan))

/-! ## The rounding step `roundToSigFigs` -/

/-- `⌊n + 1/2⌋ = n` for an integer `n`. -/
theorem floor_int_add_half (n : ℤ) : ⌊(n:ℝ) + 1/2⌋ = n := by
  rw [add_comm, Int.floor_add_int]
  norm_num [Int.floor_eq_zero_iff, Set.mem_Ico]

theorem rTSF_nan : roundToSigFigs JSNum.nan = JSNum.nan := rfl

/-- When `Math.round(n)` is `0` (any `n ∈ [-1/2, 1/2)`), the rounding step
returns `NaN`: `log(0) = -Infinity`, `10^Infinity = Infinity`, and
`0 * Infinity = NaN`. -/
theorem rTSF_fin_of_floor_zero {x : ℝ} (h : ⌊x + 1/2⌋ = 0) :
    roundToSigFigs (fin x) = JSNum.nan := by
  have hlog10 : ¬ Real.log 10 < 0 := not_lt.2 (Real.log_pos (by norm_num)).le
  unfold roundToSigFigs
  rw [JSNum.round_fin, h, Int.cast_zero, JSNum.log_fin_zero, JSNum.div_ninf_fin hlog10]
  simp only [JSNum.floor, JSNum.sub, JSNum.pow10, JSNum.mul_fin_inf_zero, JSNum.round_nan,
    JSNum.div_nan_left]

/-- `⌊log s / ln 10⌋` is the number of digits of `s` minus one. -/
theorem floor_log10_eq (S : ℝ) (k : ℕ) (hlo : (10:ℝ)^k ≤ S) (hhi : S < (10:ℝ)^(k+1)) :
    ⌊Real.log S / Real.log 10⌋ = (k:ℤ) := by
  have hS : 0 < S := lt_of_lt_of_le (by positivity) hlo
  have h10 : (0:ℝ) < Real.log 10 := Real.log_pos (by norm_num)
  rw [Int.floor_eq_iff]
  constructor
  · rw [le_div_iff₀ h10]
    calc ((k:ℤ):ℝ) * Real.log 10 = Real.log ((10:ℝ)^k) := by
          rw [Real.log_pow]; push_cast; ring
      _ ≤ Real.log S := (Real.log_le_log_iff (by positivity) hS).mpr hlo
  · rw [div_lt_iff₀ h10]
    calc Real.log S < Real.log ((10:ℝ)^(k+1)) := Real.log_lt_log hS hhi
      _ = (((k:ℤ):ℝ) + 1) * Real.log 10 := by rw [Real.log_pow]; push_cast; ring

/-- Full evaluation of the rounding step on a finite input whose rounded value
`s` has `k+1` digits: the result is the two-stage scale/round value. -/
theorem rTSF_eval_core (x : ℝ) (s : ℤ) (k : ℕ)
    (hs : ⌊x + 1/2⌋ = s) (h1 : 1 ≤ s)
    (hlo : (10:ℝ)^k ≤ (s:ℝ)) (hhi : ((s:ℝ)) < (10:ℝ)^(k+1)) :
    roundToSigFigs (fin x) =
      fin ((⌊(⌊(s:ℝ) * (10:ℝ)^((1:ℤ)-(k:ℤ)) + 1/2⌋ : ℝ) * (10:ℝ)^((k:ℤ)-1) + 1/2⌋ : ℝ)) := by
  have hS : (0:ℝ) < (s:ℝ) := by exact_mod_cast lt_of_lt_of_le Int.zero_lt_one h1
  have hlog10 : (0:ℝ) < Real.log 10 := Real.log_pos (by norm_num)
  have hfl : ⌊Real.log ((s:ℤ):ℝ) / Real.log 10⌋ = (k:ℤ) := floor_log10_eq _ _ hlo hhi
  have hTpos : (0:ℝ) < (10:ℝ) ^ ((1:ℤ) - (k:ℤ)) := zpow_pos (by norm_num) _
  unfold roundToSigFigs
  rw [JSNum.round_fin, hs, JSNum.log_fin_pos hS, JSNum.div_fin_fin _ hlog10.ne',
    JSNum.floor_fin, hfl, JSNum.sub_fin_fin, JSNum.sub_fin_fin, JSNum.pow10_fin]
  have hexp : (2:ℝ) - ((k:ℤ):ℝ) - 1 = (((1:ℤ) - (k:ℤ) : ℤ) : ℝ) := by push_cast; ring
  rw [hexp, Real.rpow_intCast, JSNum.mul_fin_fin, JSNum.round_fin,
    JSNum.div_fin_fin _ hTpos.ne', JSNum.round_fin]
  have hdiv : (⌊(s:ℝ) * (10:ℝ)^((1:ℤ)-(k:ℤ)) + 1/2⌋ : ℝ) / (10:ℝ)^((1:ℤ)-(k:ℤ)) =
      (⌊(s:ℝ) * (10:ℝ)^((1:ℤ)-(k:ℤ)) + 1/2⌋ : ℝ) * (10:ℝ)^((k:ℤ)-1) := by
    rw [div_eq_mul_inv, ← zpow_neg, neg_sub]
  rw [hdiv]

/-- Every integer `s ≥ 1` has some number of digits. -/
theorem exists_digits (s : ℤ) (h : 1 ≤ s) :
    ∃ k : ℕ, (10:ℝ)^k ≤ (s:ℝ) ∧ ((s:ℝ)) < (10:ℝ)^(k+1) := by
  obtain ⟨n, rfl⟩ : ∃ n : ℕ, s = (n:ℤ) := ⟨s.toNat, (Int.toNat_of_nonneg (by omega)).symm⟩
  refine ⟨Nat.log 10 n, ?_, ?_⟩
  · exact_mod_cast Nat.pow_log_le_self 10 (x := n) (by omega)
  · exact_mod_cast Nat.lt_pow_succ_log_self (b := 10) (by norm_num) n

theorem ten_zpow_add (a b : ℤ) : (10:ℝ)^a * (10:ℝ)^b = (10:ℝ)^(a+b) :=
  (zpow_add₀ (by norm_num : (10:ℝ) ≠ 0) a b).symm

/-- Every output of the rounding step on an input rounding to at least `1` is a
positive integer with at most two significant digits. -/
theorem rTSF_output_form (x : ℝ) (h : 1 ≤ ⌊x + 1/2⌋) :
    ∃ d j : ℕ, 1 ≤ d ∧ d ≤ 99 ∧ roundToSigFigs (fin x) = fin ((d:ℝ) * (10:ℝ)^(j:ℕ)) := by
  obtain ⟨k, hlo, hhi⟩ := exists_digits ⌊x + 1/2⌋ h
  have hcore := rTSF_eval_core x ⌊x + 1/2⌋ k rfl h hlo hhi
  cases k with
  | zero =>
      have hs9 : ⌊x + 1/2⌋ ≤ 9 := by
        have h10 : (⌊x + 1/2⌋ : ℝ) < 10 := by simpa using hhi
        exact_mod_cast Int.lt_add_one_iff.mp (by exact_mod_cast h10)
      have hM : (⌊x + 1/2⌋ : ℝ) * (10:ℝ)^((1:ℤ)-((0:ℕ):ℤ)) = ((10 * ⌊x + 1/2⌋ : ℤ) : ℝ) := by
        push_cast
        norm_num
        ring
      have hMfl : ⌊(⌊x + 1/2⌋ : ℝ) * (10:ℝ)^((1:ℤ)-((0:ℕ):ℤ)) + 1/2⌋ = 10 * ⌊x + 1/2⌋ := by
        rw [hM, floor_int_add_half]
      have hV : ((10 * ⌊x + 1/2⌋ : ℤ) : ℝ) * (10:ℝ)^(((0:ℕ):ℤ)-1) = ((⌊x + 1/2⌋ : ℤ) : ℝ) := by
        push_cast
        norm_num
        ring
      refine ⟨(⌊x + 1/2⌋).toNat, 0, by omega, by omega, ?_⟩
      rw [hcore, hMfl, hV, floor_int_add_half]
      congr 1
      rw [pow_zero, mul_one]
      exact_mod_cast congrArg (fun z : ℤ => ((z:ℝ))) (Int.toNat_of_nonneg (by omega)).symm
  | succ j =>
      have hTpos : (0:ℝ) < (10:ℝ)^((1:ℤ)-((j+1:ℕ):ℤ)) := zpow_pos (by norm_num) _
      have hST_lo : (10:ℝ) ≤ (⌊x + 1/2⌋ : ℝ) * (10:ℝ)^((1:ℤ)-((j+1:ℕ):ℤ)) := by
        have := mul_le_mul_of_nonneg_right hlo hTpos.le
        calc (10:ℝ) = (10:ℝ)^((j+1:ℕ):ℤ) * (10:ℝ)^((1:ℤ)-((j+1:ℕ):ℤ)) := by
              rw [ten_zpow_add]
              norm_num
          _ = (10:ℝ)^(j+1:ℕ) * (10:ℝ)^((1:ℤ)-((j+1:ℕ):ℤ)) := by rw [zpow_natCast]
          _ ≤ _ := this
      have hST_hi : (⌊x + 1/2⌋ : ℝ) * (10:ℝ)^((1:ℤ)-((j+1:ℕ):ℤ)) < 100 := by
        have := mul_lt_mul_of_pos_right hhi hTpos
        calc (⌊x + 1/2⌋ : ℝ) * (10:ℝ)^((1:ℤ)-((j+1:ℕ):ℤ)) < (10:ℝ)^(j+1+1) * (10:ℝ)^((1:ℤ)-((j+1:ℕ):ℤ)) := this
          _ = (10:ℝ)^((j+1+1:ℕ):ℤ) * (10:ℝ)^((1:ℤ)-((j+1:ℕ):ℤ)) := by rw [zpow_natCast]
          _ = 100 := by
              rw [ten_zpow_add]
              have : ((j+1+1:ℕ):ℤ) + ((1:ℤ)-((j+1:ℕ):ℤ)) = 2 := by push_cast; ring
              rw [this]
              norm_num
      set M : ℤ := ⌊(⌊x + 1/2⌋ : ℝ) * (10:ℝ)^((1:ℤ)-((j+1:ℕ):ℤ)) + 1/2⌋ with hMdef
      have hM_lo : 10 ≤ M := by
        have h10 : (10:ℝ) ≤ (⌊x + 1/2⌋ : ℝ) * (10:ℝ)^((1:ℤ)-((j+1:ℕ):ℤ)) + 1/2 := by linarith
        exact Int.le_floor.mpr (by exact_mod_cast h10)
      have hM_hi : M ≤ 100 := by
        have h101 : (⌊x + 1/2⌋ : ℝ) * (10:ℝ)^((1:ℤ)-((j+1:ℕ):ℤ)) + 1/2 < 101 := by linarith
        have : M < 101 := Int.floor_lt.mpr (by exact_mod_cast h101)
        omega
      have hVcast : ((M:ℝ)) * (10:ℝ)^(((j+1:ℕ):ℤ)-1) = ((M * 10^j : ℤ) : ℝ) := by
        have : (((j+1:ℕ):ℤ)-1) = ((j:ℕ):ℤ) := by push_cast; ring
        rw [this, zpow_natCast]
        push_cast
        ring
      have hV : ⌊((M:ℝ)) * (10:ℝ)^(((j+1:ℕ):ℤ)-1) + 1/2⌋ = M * 10^j := by
        rw [hVcast, floor_int_add_half]
      rcases lt_or_eq_of_le hM_hi with hM99 | hM100
      · refine ⟨M.toNat, j, by omega, by omega, ?_⟩
        rw [hcore, hV]
        congr 1
        have hMR : ((M.toNat : ℕ) : ℝ) = ((M : ℤ) : ℝ) := by
          exact_mod_cast congrArg (fun z : ℤ => ((z:ℝ))) (Int.toNat_of_nonneg
            (show (0:ℤ) ≤ M by omega))
        rw [hMR]
        push_cast
        ring
      · refine ⟨10, j+1, by omega, by omega, ?_⟩
        rw [hcore, hV, hM100]
        congr 1
        push_cast
        ring

/-- Positive integers with at most two significant digits are fixed points of
the rounding step. -/
theorem rTSF_fixpoint (d j : ℕ) (h1 : 1 ≤ d) (h2 : d ≤ 99) :
    roundToSigFigs (fin ((d:ℝ) * (10:ℝ)^(j:ℕ))) = fin ((d:ℝ) * (10:ℝ)^(j:ℕ)) := by
  have hten : (10:ℝ) ≠ 0 := by norm_num
  have hy : (d:ℝ) * (10:ℝ)^(j:ℕ) = (((d * 10^j : ℕ) : ℤ) : ℝ) := by push_cast; ring
  have hfl : ⌊(d:ℝ) * (10:ℝ)^(j:ℕ) + 1/2⌋ = ((d * 10^j : ℕ) : ℤ) := by
    rw [hy, floor_int_add_half]
  have hpow_pos : 0 < (10:ℕ)^j := pow_pos (by norm_num) j
  have h1' : 1 ≤ ((d * 10^j : ℕ) : ℤ) := by
    have : 0 < d * 10^j := Nat.mul_pos h1 hpow_pos
    exact_mod_cast this
  have hpowR : (0:ℝ) < (10:ℝ)^(j:ℕ) := pow_pos (by norm_num) j
  have hd1R : (1:ℝ) ≤ (d:ℝ) := by exact_mod_cast h1
  rcases le_or_lt d 9 with hd | hd
  · -- d has one digit: k = j.
    have hlo : (10:ℝ)^j ≤ (((d * 10^j : ℕ):ℤ):ℝ) := by
      push_cast
      nlinarith
    have hhi : ((((d * 10^j : ℕ):ℤ):ℝ)) < (10:ℝ)^(j+1) := by
      push_cast
      have hdr : (d:ℝ) < 10 := by exact_mod_cast Nat.lt_succ_of_le hd
      calc (d:ℝ) * (10:ℝ)^j < 10 * (10:ℝ)^j := mul_lt_mul_of_pos_right hdr hpowR
        _ = (10:ℝ)^(j+1) := by ring
    have hcore := rTSF_eval_core _ _ j hfl h1' hlo hhi
    have hMcast : (((d*10^j:ℕ):ℤ):ℝ) * (10:ℝ)^((1:ℤ)-((j:ℕ):ℤ)) = (((10*d:ℕ):ℤ):ℝ) := by
      push_cast
      rw [zpow_sub₀ hten, zpow_one, zpow_natCast]
      field_simp
      ring
    have hM : ⌊(((d*10^j:ℕ):ℤ):ℝ) * (10:ℝ)^((1:ℤ)-((j:ℕ):ℤ)) + 1/2⌋ = ((10*d:ℕ):ℤ) := by
      rw [hMcast, floor_int_add_half]
    have hVcast : ((((10*d:ℕ):ℤ)):ℝ) * (10:ℝ)^(((j:ℕ):ℤ)-1) = (((d*10^j:ℕ):ℤ):ℝ) := by
      push_cast
      rw [zpow_sub₀ hten, zpow_one, zpow_natCast]
      field_simp
      ring
    rw [hcore, hM, hVcast, floor_int_add_half, ← hy]
  · -- d has two digits: k = j + 1.
    have hdr10 : (10:ℝ) ≤ (d:ℝ) := by exact_mod_cast hd
    have hdr100 : (d:ℝ) < 100 := by
      have : d < 100 := by omega
      exact_mod_cast this
    have hlo : (10:ℝ)^(j+1) ≤ (((d * 10^j : ℕ):ℤ):ℝ) := by
      push_cast
      calc (10:ℝ)^(j+1) = 10 * (10:ℝ)^j := by ring
        _ ≤ (d:ℝ) * (10:ℝ)^j := mul_le_mul_of_nonneg_right hdr10 hpowR.le
    have hhi : ((((d * 10^j : ℕ):ℤ):ℝ)) < (10:ℝ)^(j+1+1) := by
      push_cast
      calc (d:ℝ) * (10:ℝ)^j < 100 * (10:ℝ)^j := mul_lt_mul_of_pos_right hdr100 hpowR
        _ = (10:ℝ)^(j+1+1) := by ring
    have hcore := rTSF_eval_core _ _ (j+1) hfl h1' hlo hhi
    have hMcast : (((d*10^j:ℕ):ℤ):ℝ) * (10:ℝ)^((1:ℤ)-((j+1:ℕ):ℤ)) = (((d:ℕ):ℤ):ℝ) := by
      push_cast
      rw [zpow_sub₀ hten, zpow_one]
      rw [show ((j:ℤ)+1) = ((j+1:ℕ):ℤ) from by push_cast; ring, zpow_natCast]
      rw [pow_succ]
      field_simp
      ring
    have hM : ⌊(((d*10^j:ℕ):ℤ):ℝ) * (10:ℝ)^((1:ℤ)-((j+1:ℕ):ℤ)) + 1/2⌋ = ((d:ℕ):ℤ) := by
      rw [hMcast, floor_int_add_half]
    have hVcast : ((((d:ℕ):ℤ)):ℝ) * (10:ℝ)^(((j+1:ℕ):ℤ)-1) = (((d*10^j:ℕ):ℤ):ℝ) := by
      push_cast
      rw [show ((j:ℤ)+1-1) = ((j:ℕ):ℤ) from by ring, zpow_natCast]
    rw [hcore, hM, hVcast, floor_int_add_half, ← hy]

/-- The rounding step is idempotent on every output it produces from a positive
input. -/
theorem rTSF_idem (x : ℝ) (hx : 0 < x) :
    roundToSigFigs (roundToSigFigs (fin x)) = roundToSigFigs (fin x) := by
  have h0 : 0 ≤ ⌊x + 1/2⌋ := Int.floor_nonneg.mpr (by positivity)
  rcases eq_or_lt_of_le h0 with h | h
  · rw [rTSF_fin_of_floor_zero h.symm, rTSF_nan]
  · obtain ⟨d, j, hd1, hd2, hout⟩ := rTSF_output_form x h
    rw [hout, rTSF_fixpoint d j hd1 hd2]

/-! ## Evaluations of the estimator at concrete points -/

theorem floor_eq_of_bounds (r : ℝ) (n : ℤ) (h1 : (n:ℝ) ≤ r) (h2 : r < n + 1) : ⌊r⌋ = n :=
  Int.floor_eq_iff.mpr ⟨h1, h2⟩

/-- A `NaN` baseline conversion rate propagates to the `null` result. -/
theorem sse_nan_conversion (e sd : JSNum) : sampleSizeEstimate JSNum.nan e sd = none := by
  have h2 : sampleEstimate2 JSNum.nan e sd = JSNum.nan := by
    unfold sampleEstimate2
    rw [show varianceOf JSNum.nan (armUp JSNum.nan e) = JSNum.nan from by simp [varianceOf]]
    exact estFrom_nan_v _ _
  exact sse_none_of_not_numeric
    (by rw [selected_of_est2_nan h2]; exact JSNum.not_isNumeric_nan)

/-- A non-`null` result forces the selected estimate to be nonnegative. -/
theorem sel_nonneg_of_ne_none {c e sd : JSNum} {x : ℝ}
    (h : sampleSizeEstimate c e sd ≠ none) (hsel : selectedEstimate c e sd = fin x) :
    0 ≤ x := by
  by_contra hneg
  push_neg at hneg
  apply h
  unfold sampleSizeEstimate
  rw [hsel]
  exact if_pos (Or.inr (Or.inr hneg))

theorem est1_eval_golden :
    sampleEstimate1 (fin (1/2)) (fin (1/5)) (fin (19/20)) = fin ((2793/10) * Real.log 2) := by
  have h0 : sampleEstimate1 (fin (1/2)) (fin (1/5)) (fin (19/20)) =
      estFrom (fin (19/20)) (fin (49/100)) (fin (1/10)) := by
    show estFrom (fin (19/20))
        (varianceOf (fin (1/2)) (armDown (fin (1/2)) (fin (1/5))))
        (theta (fin (1/2)) (fin (1/5))) = _
    rw [show armDown (fin (1/2)) (fin (1/5)) = fin ((1/2) - (1/2)*(1/5)) from rfl]
    rw [show varianceOf (fin (1/2)) (fin ((1/2) - (1/2)*(1/5))) =
        fin ((1/2)*(1-(1/2)) + ((1/2) - (1/2)*(1/5))*(1-((1/2) - (1/2)*(1/5)))) from rfl]
    rw [show theta (fin (1/2)) (fin (1/5)) = fin |(1/2:ℝ)*(1/5)| from rfl]
    norm_num
    rw [abs_of_pos (by norm_num : (0:ℝ) < 1/10)]
  rw [h0, estFrom_fin _ _ _ (by norm_num) (by norm_num)]
  have hsq : Real.sqrt (49/100) = 7/10 := by
    rw [show (49/100:ℝ) = (7/10)^2 by norm_num, Real.sqrt_sq (by norm_num)]
  have hlog : Real.log (1 + Real.sqrt (49/100) / (1/10)) = 3 * Real.log 2 := by
    rw [hsq, show (1:ℝ) + (7/10)/(1/10) = 2^3 by norm_num, Real.log_pow]
    push_cast
    ring
  rw [hlog]
  congr 1
  ring

theorem est2_eval_golden :
    sampleEstimate2 (fin (1/2)) (fin (1/5)) (fin (19/20)) = fin ((2793/10) * Real.log 2) := by
  have h0 : sampleEstimate2 (fin (1/2)) (fin (1/5)) (fin (19/20)) =
      estFrom (fin (19/20)) (fin (49/100)) (fin (1/10)) := by
    show estFrom (fin (19/20))
        (varianceOf (fin (1/2)) (armUp (fin (1/2)) (fin (1/5))))
        (theta (fin (1/2)) (fin (1/5))) = _
    rw [show armUp (fin (1/2)) (fin (1/5)) = fin ((1/2) + (1/2)*(1/5)) from rfl]
    rw [show varianceOf (fin (1/2)) (fin ((1/2) + (1/2)*(1/5))) =
        fin ((1/2)*(1-(1/2)) + ((1/2) + (1/2)*(1/5))*(1-((1/2) + (1/2)*(1/5)))) from rfl]
    rw [show theta (fin (1/2)) (fin (1/5)) = fin |(1/2:ℝ)*(1/5)| from rfl]
    norm_num
    rw [abs_of_pos (by norm_num : (0:ℝ) < 1/10)]
  rw [h0, estFrom_fin _ _ _ (by norm_num) (by norm_num)]
  have hsq : Real.sqrt (49/100) = 7/10 := by
    rw [show (49/100:ℝ) = (7/10)^2 by norm_num, Real.sqrt_sq (by norm_num)]
  have hlog : Real.log (1 + Real.sqrt (49/100) / (1/10)) = 3 * Real.log 2 := by
    rw [hsq, show (1:ℝ) + (7/10)/(1/10) = 2^3 by norm_num, Real.log_pow]
    push_cast
    ring
  rw [hlog]
  congr 1
  ring

/-- The golden-point evaluation: baseline `0.5`, effect `0.2`, significance
`0.95` produce the two-significant-figure sample size `190`. -/
theorem sse_eval_golden :
    sampleSizeEstimate (fin (1/2)) (fin (1/5)) (fin (19/20)) = some (fin 190) := by
  have hl := Real.log_two_gt_d9
  have hu := Real.log_two_lt_d9
  have hsel : selectedEstimate (fin (1/2)) (fin (1/5)) (fin (19/20)) =
      fin ((2793/10) * Real.log 2) :=
    selected_fin_left est1_eval_golden est2_eval_golden le_rfl
  have hpos : (0:ℝ) ≤ (2793/10) * Real.log 2 := by nlinarith
  rw [sse_some_of_fin_nonneg hsel hpos]
  have hfl : ⌊(2793/10) * Real.log 2 + 1/2⌋ = (194:ℤ) :=
    floor_eq_of_bounds _ 194 (by nlinarith) (by nlinarith)
  rw [rTSF_eval_core _ 194 2 hfl (by norm_num) (by norm_num) (by norm_num)]
  have hM : ⌊((194:ℤ):ℝ) * (10:ℝ)^((1:ℤ)-((2:ℕ):ℤ)) + 1/2⌋ = (19:ℤ) := by
    apply floor_eq_of_bounds
    · norm_num
    · norm_num
  rw [hM]
  have hV : ⌊((19:ℤ):ℝ) * (10:ℝ)^(((2:ℕ):ℤ)-1) + 1/2⌋ = (190:ℤ) := by
    apply floor_eq_of_bounds
    · norm_num
    · norm_num
  rw [hV]
  norm_num

/-- Significance level `0`: both candidates evaluate to `0`, validation passes,
and the rounding step turns `0` into `NaN`. -/
theorem sse_eval_sig0 :
    sampleSizeEstimate (fin (1/2)) (fin (1/5)) (fin 0) = some JSNum.nan := by
  have habs : |(1/2:ℝ)*(1/5)| = 1/10 := by
    rw [show (1/2:ℝ)*(1/5) = 1/10 by norm_num, abs_of_pos (by norm_num : (0:ℝ) < 1/10)]
  have h1 : sampleEstimate1 (fin (1/2)) (fin (1/5)) (fin 0) = fin 0 := by
    show estFrom (fin 0)
        (varianceOf (fin (1/2)) (armDown (fin (1/2)) (fin (1/5))))
        (theta (fin (1/2)) (fin (1/5))) = _
    rw [show varianceOf (fin (1/2)) (armDown (fin (1/2)) (fin (1/5))) =
        fin ((1/2)*(1-(1/2)) + ((1/2) - (1/2)*(1/5))*(1-((1/2) - (1/2)*(1/5)))) from rfl]
    rw [show theta (fin (1/2)) (fin (1/5)) = fin |(1/2:ℝ)*(1/5)| from rfl, habs]
    rw [show ((1/2:ℝ)*(1-(1/2)) + ((1/2) - (1/2)*(1/5))*(1-((1/2) - (1/2)*(1/5)))) = 49/100
      by norm_num]
    rw [estFrom_fin _ _ _ (by norm_num) (by norm_num)]
    norm_num
  have h2 : sampleEstimate2 (fin (1/2)) (fin (1/5)) (fin 0) = fin 0 := by
    show estFrom (fin 0)
        (varianceOf (fin (1/2)) (armUp (fin (1/2)) (fin (1/5))))
        (theta (fin (1/2)) (fin (1/5))) = _
    rw [show varianceOf (fin (1/2)) (armUp (fin (1/2)) (fin (1/5))) =
        fin ((1/2)*(1-(1/2)) + ((1/2) + (1/2)*(1/5))*(1-((1/2) + (1/2)*(1/5)))) from rfl]
    rw [show theta (fin (1/2)) (fin (1/5)) = fin |(1/2:ℝ)*(1/5)| from rfl, habs]
    rw [show ((1/2:ℝ)*(1-(1/2)) + ((1/2) + (1/2)*(1/5))*(1-((1/2) + (1/2)*(1/5)))) = 49/100
      by norm_num]
    rw [estFrom_fin _ _ _ (by norm_num) (by norm_num)]
    norm_num
  have hsel : selectedEstimate (fin (1/2)) (fin (1/5)) (fin 0) = fin 0 :=
    selected_fin_left h1 h2 le_rfl
  rw [sse_some_of_fin_nonneg hsel le_rfl,
    rTSF_fin_of_floor_zero (floor_eq_of_bounds _ 0 (by norm_num) (by norm_num))]

/-- Baseline `1`, effect `-1/2`: the down-shifted arm has negative variance so
`sampleEstimate1` is `NaN`; the up-shifted arm is valid, is selected (the `>=`
against `NaN` is false), and rounds to `1`. -/
theorem sse_eval_baseline_one :
    sampleSizeEstimate (fin 1) (fin (-(1/2))) (fin (19/20)) = some (fin 1) := by
  have hl := Real.log_two_gt_d9
  have hu := Real.log_two_lt_d9
  have h1 : sampleEstimate1 (fin 1) (fin (-(1/2))) (fin (19/20)) = JSNum.nan := by
    show estFrom (fin (19/20))
        (varianceOf (fin 1) (armDown (fin 1) (fin (-(1/2)))))
        (theta (fin 1) (fin (-(1/2)))) = _
    rw [show varianceOf (fin 1) (armDown (fin 1) (fin (-(1/2)))) =
        fin ((1:ℝ)*(1-1) + (1 - 1*(-(1/2)))*(1-(1 - 1*(-(1/2))))) from rfl]
    exact estFrom_neg_v _ _ (by norm_num)
  have habs : |(1:ℝ)*(-(1/2))| = 1/2 := by
    rw [show (1:ℝ)*(-(1/2)) = -(1/2) by norm_num, abs_neg, abs_of_pos (by norm_num : (0:ℝ) < 1/2)]
  have h2 : sampleEstimate2 (fin 1) (fin (-(1/2))) (fin (19/20)) =
      fin ((19/10) * Real.log 2) := by
    show estFrom (fin (19/20))
        (varianceOf (fin 1) (armUp (fin 1) (fin (-(1/2)))))
        (theta (fin 1) (fin (-(1/2)))) = _
    rw [show varianceOf (fin 1) (armUp (fin 1) (fin (-(1/2)))) =
        fin ((1:ℝ)*(1-1) + (1 + 1*(-(1/2)))*(1-(1 + 1*(-(1/2))))) from rfl]
    rw [show theta (fin 1) (fin (-(1/2))) = fin |(1:ℝ)*(-(1/2))| from rfl, habs]
    rw [show ((1:ℝ)*(1-1) + (1 + 1*(-(1/2)))*(1-(1 + 1*(-(1/2))))) = 1/4 by norm_num]
    rw [estFrom_fin _ _ _ (by norm_num) (by norm_num)]
    have hsq : Real.sqrt (1/4) = 1/2 := by
      rw [show (1/4:ℝ) = (1/2)^2 by norm_num, Real.sqrt_sq (by norm_num)]
    rw [hsq, show (1:ℝ) + (1/2)/(1/2) = 2 by norm_num]
    congr 1
    ring
  have hsel : selectedEstimate (fin 1) (fin (-(1/2))) (fin (19/20)) =
      fin ((19/10) * Real.log 2) := by
    rw [selected_of_est1_nan h1, h2]
  have hpos : (0:ℝ) ≤ (19/10) * Real.log 2 := by nlinarith
  rw [sse_some_of_fin_nonneg hsel hpos]
  have hfl : ⌊(19/10) * Real.log 2 + 1/2⌋ = (1:ℤ) :=
    floor_eq_of_bounds _ 1 (by nlinarith) (by nlinarith)
  rw [rTSF_eval_core _ 1 0 hfl (by norm_num) (by norm_num) (by norm_num)]
  have hM : ⌊((1:ℤ):ℝ) * (10:ℝ)^((1:ℤ)-((0:ℕ):ℤ)) + 1/2⌋ = (10:ℤ) :=
    floor_eq_of_bounds _ 10 (by norm_num) (by norm_num)
  rw [hM]
  have hV : ⌊((10:ℤ):ℝ) * (10:ℝ)^(((0:ℕ):ℤ)-1) + 1/2⌋ = (1:ℤ) :=
    floor_eq_of_bounds _ 1 (by norm_num) (by norm_num)
  rw [hV]
  norm_num

/-- Baseline `1/10`, effect `6`: the down-shifted arm has negative variance so
`sampleEstimate1` is `NaN`, while `sampleEstimate2` is finite and nonnegative. -/
theorem est1_eval_bigeffect :
    sampleEstimate1 (fin (1/10)) (fin 6) (fin (19/20)) = JSNum.nan := by
  show estFrom (fin (19/20))
      (varianceOf (fin (1/10)) (armDown (fin (1/10)) (fin 6)))
      (theta (fin (1/10)) (fin 6)) = _
  rw [show varianceOf (fin (1/10)) (armDown (fin (1/10)) (fin 6)) =
      fin ((1/10)*(1-(1/10)) + ((1/10) - (1/10)*6)*(1-((1/10) - (1/10)*6))) from rfl]
  exact estFrom_neg_v _ _ (by norm_num)

theorem est2_eval_bigeffect :
    ∃ y : ℝ, 0 ≤ y ∧ sampleEstimate2 (fin (1/10)) (fin 6) (fin (19/20)) = fin y := by
  have habs : |(1/10:ℝ)*6| = 3/5 := by
    rw [show (1/10:ℝ)*6 = 3/5 by norm_num, abs_of_pos (by norm_num : (0:ℝ) < 3/5)]
  have h0 : sampleEstimate2 (fin (1/10)) (fin 6) (fin (19/20)) =
      estFrom (fin (19/20)) (fin (3/10)) (fin (3/5)) := by
    show estFrom (fin (19/20))
        (varianceOf (fin (1/10)) (armUp (fin (1/10)) (fin 6)))
        (theta (fin (1/10)) (fin 6)) = _
    rw [show varianceOf (fin (1/10)) (armUp (fin (1/10)) (fin 6)) =
        fin ((1/10)*(1-(1/10)) + ((1/10) + (1/10)*6)*(1-((1/10) + (1/10)*6))) from rfl]
    rw [show theta (fin (1/10)) (fin 6) = fin |(1/10:ℝ)*6| from rfl, habs]
    rw [show ((1/10:ℝ)*(1-(1/10)) + ((1/10) + (1/10)*6)*(1-((1/10) + (1/10)*6))) = 3/10
      by norm_num]
  have hlognn : 0 ≤ Real.log (1 + Real.sqrt (3/10) / (3/5)) :=
    Real.log_nonneg (by nlinarith [Real.sqrt_nonneg (3/10:ℝ)])
  refine ⟨2 * (1 - (1 - 19/20)) * (3/10) * Real.log (1 + Real.sqrt (3/10) / (3/5)) /
      ((3/5) * (3/5)), ?_, ?_⟩
  · apply div_nonneg
    · exact mul_nonneg (mul_nonneg (by norm_num) (by norm_num)) hlognn
    · norm_num
  · rw [h0, estFrom_fin _ _ _ (by norm_num) (by norm_num)]

/-- Baseline `1/10`, effect `-59/10`: here the *up*-shifted arm has negative
variance, `sampleEstimate2` is `NaN`, the `>=` against `NaN` is false, `NaN` is
selected, and the result is `null`. -/
theorem sse_eval_negeffect :
    sampleSizeEstimate (fin (1/10)) (fin (-(59/10))) (fin (19/20)) = none := by
  have h2 : sampleEstimate2 (fin (1/10)) (fin (-(59/10))) (fin (19/20)) = JSNum.nan := by
    show estFrom (fin (19/20))
        (varianceOf (fin (1/10)) (armUp (fin (1/10)) (fin (-(59/10)))))
        (theta (fin (1/10)) (fin (-(59/10)))) = _
    rw [show varianceOf (fin (1/10)) (armUp (fin (1/10)) (fin (-(59/10)))) =
        fin ((1/10)*(1-(1/10)) +
          ((1/10) + (1/10)*(-(59/10)))*(1-((1/10) + (1/10)*(-(59/10))))) from rfl]
    exact estFrom_neg_v _ _ (by norm_num)
  exact sse_none_of_not_numeric
    (by rw [selected_of_est2_nan h2]; exact JSNum.not_isNumeric_nan)

/-- Baseline `1/10`, effect `6`: the valid up-shifted candidate is selected and
a (positive) sample size is returned. -/
theorem sse_eval_bigeffect :
    sampleSizeEstimate (fin (1/10)) (fin 6) (fin (19/20)) ≠ none := by
  obtain ⟨y, hy, h2⟩ := est2_eval_bigeffect
  have hsel : selectedEstimate (fin (1/10)) (fin 6) (fin (19/20)) = fin y := by
    rw [selected_of_est1_nan est1_eval_bigeffect, h2]
  rw [sse_some_of_fin_nonneg hsel hy]
  exact Option.some_ne_none _

/-! ## The zero-effect path and the shape of successful results -/

namespace JSNum

@[simp] theorem fin_ne_nan (x : ℝ) : fin x ≠ nan := fun h => JSNum.noConfusion h

@[simp] theorem fin_ne_inf (x : ℝ) : fin x ≠ inf := fun h => JSNum.noConfusion h

@[simp] theorem fin_ne_ninf (x : ℝ) : fin x ≠ ninf := fun h => JSNum.noConfusion h

@[simp] theorem nan_ne_fin (x : ℝ) : nan ≠ fin x := fun h => JSNum.noConfusion h

end JSNum

/-- If neither candidate is finite, neither is the selected one. -/
theorem sel_not_numeric_of_both {c e s : JSNum}
    (h1 : ¬ JSNum.isNumeric (sampleEstimate1 c e s))
    (h2 : ¬ JSNum.isNumeric (sampleEstimate2 c e s)) :
    ¬ JSNum.isNumeric (selectedEstimate c e s) := by
  unfold selectedEstimate
  split_ifs <;> assumption

/-- The zero-effect path: for every baseline in `(0,1)` and every real
significance level, a zero relative effect gives `theta = 0`, both candidates
non-finite, and the `null` result. -/
theorem sse_zero_effect (c sd : ℝ) (hc0 : 0 < c) (hc1 : c < 1) :
    sampleSizeEstimate (fin c) (fin 0) (fin sd) = none := by
  have hv : (0:ℝ) < c*(1-c) + c*(1-c) := by nlinarith
  have habs : |c*(0:ℝ)| = 0 := by rw [mul_zero, abs_zero]
  have h1 : ¬ JSNum.isNumeric (sampleEstimate1 (fin c) (fin 0) (fin sd)) := by
    show ¬ JSNum.isNumeric (estFrom (fin sd)
      (varianceOf (fin c) (armDown (fin c) (fin 0))) (theta (fin c) (fin 0)))
    rw [show varianceOf (fin c) (armDown (fin c) (fin 0)) =
        fin (c*(1-c) + (c - c*0)*(1-(c - c*0))) from rfl]
    rw [show theta (fin c) (fin 0) = fin |c*(0:ℝ)| from rfl, habs]
    rw [show (c*(1-c) + (c - c*0)*(1-(c - c*0))) = c*(1-c) + c*(1-c) by ring]
    exact estFrom_th_zero sd hv
  have h2 : ¬ JSNum.isNumeric (sampleEstimate2 (fin c) (fin 0) (fin sd)) := by
    show ¬ JSNum.isNumeric (estFrom (fin sd)
      (varianceOf (fin c) (armUp (fin c) (fin 0))) (theta (fin c) (fin 0)))
    rw [show varianceOf (fin c) (armUp (fin c) (fin 0)) =
        fin (c*(1-c) + (c + c*0)*(1-(c + c*0))) from rfl]
    rw [show theta (fin c) (fin 0) = fin |c*(0:ℝ)| from rfl, habs]
    rw [show (c*(1-c) + (c + c*0)*(1-(c + c*0))) = c*(1-c) + c*(1-c) by ring]
    exact estFrom_th_zero sd hv
  exact sse_none_of_not_numeric (sel_not_numeric_of_both h1 h2)

/-- Every non-`null` result of the estimator is `NaN` or a finite value `≥ 1`. -/
theorem sse_some_form (c e sd v : JSNum) (h : sampleSizeEstimate c e sd = some v) :
    v = JSNum.nan ∨ ∃ y : ℝ, 1 ≤ y ∧ v = fin y := by
  rcases sse_cases c e sd with hn | ⟨x, hx, heq⟩
  · rw [hn] at h
    exact absurd h (by simp)
  · rw [heq] at h
    injection h with h'
    subst h'
    have h0 : 0 ≤ ⌊x + 1/2⌋ := Int.floor_nonneg.mpr (by positivity)
    rcases eq_or_lt_of_le h0 with h1 | h1
    · exact Or.inl (rTSF_fin_of_floor_zero h1.symm)
    · right
      obtain ⟨d, j, hd1, hd2, hout⟩ := rTSF_output_form x h1
      refine ⟨(d:ℝ) * (10:ℝ)^(j:ℕ), ?_, hout⟩
      have hdR : (1:ℝ) ≤ (d:ℝ) := by exact_mod_cast hd1
      have hpR : (1:ℝ) ≤ (10:ℝ)^(j:ℕ) := by
        calc (1:ℝ) = 1^j := (one_pow j).symm
          _ ≤ 10^j := pow_le_pow_left₀ (by norm_num) (by norm_num) j
      nlinarith

/-! ## The tool layer -/

theorem jsOrDefault_ne_zero_nan (x d : JSNum) (hd0 : d ≠ fin 0) (hdn : d ≠ JSNum.nan) :
    jsOrDefault x d ≠ fin 0 ∧ jsOrDefault x d ≠ JSNum.nan := by
  unfold jsOrDefault
  split_ifs with h
  · exact ⟨hd0, hdn⟩
  · push_neg at h
    exact ⟨h.1, h.2⟩

theorem jsOrDefault_fin_ne {x : ℝ} (hx : x ≠ 0) (d : JSNum) : jsOrDefault (fin x) d = fin x := by
  unfold jsOrDefault
  rw [if_neg]
  simp [hx]

/-- JavaScript `0 / v` is `0` for every non-`NaN`, nonzero `v` (signed zeros
identified). -/
theorem div_zero_of_ne (v : JSNum) (h0 : v ≠ fin 0) (hn : v ≠ JSNum.nan) :
    JSNum.div (fin 0) v = fin 0 := by
  cases v with
  | fin k =>
      have hk : k ≠ 0 := fun h => h0 (by rw [h])
      rw [JSNum.div_fin_fin _ hk, zero_div]
  | inf => rfl
  | ninf => rfl
  | nan => exact absurd rfl hn

open scoped Classical in
/-- With the variant multiplier applied to a `NaN`-or-`≥1` sample size, the
division by a zero daily visitor count is `NaN` or `Infinity`. -/
theorem daysToRun_cases (v varv : JSNum)
    (hv : v = JSNum.nan ∨ ∃ y : ℝ, 1 ≤ y ∧ v = fin y)
    (hn : varv ≠ JSNum.nan) :
    JSNum.div (mul v (if jsGt varv (fin 2) then varv else fin 1)) (fin 0) = JSNum.nan ∨
    JSNum.div (mul v (if jsGt varv (fin 2) then varv else fin 1)) (fin 0) = JSNum.inf := by
  rcases hv with rfl | ⟨y, hy, rfl⟩
  · left
    rw [JSNum.mul_nan_left, JSNum.div_nan_left]
  · right
    have hypos : (0:ℝ) < y := lt_of_lt_of_le one_pos hy
    split_ifs with hg
    · cases varv with
      | fin k =>
          have hk : (2:ℝ) < k := hg
          rw [JSNum.mul_fin_fin, JSNum.div_fin_zero_pos (by nlinarith)]
      | inf =>
          rw [JSNum.mul_fin_inf_pos hypos]
          exact JSNum.div_inf_fin (by norm_num)
      | ninf => exact hg.elim
      | nan => exact absurd rfl hn
    · rw [show mul (fin y) (fin 1) = fin y from by rw [JSNum.mul_fin_fin, mul_one]]
      exact JSNum.div_fin_zero_pos hypos

theorem div_nan_or_inf {a : JSNum} (h : a = JSNum.nan ∨ a = JSNum.inf) {q : ℝ} (hq : ¬ q < 0) :
    JSNum.div a (fin q) = JSNum.nan ∨ JSNum.div a (fin q) = JSNum.inf := by
  rcases h with rfl | rfl
  · exact Or.inl (JSNum.div_nan_left _)
  · exact Or.inr (JSNum.div_inf_fin hq)

theorem round_not_finite {a : JSNum} (h : a = JSNum.nan ∨ a = JSNum.inf) :
    ¬ JSNum.isFinite (JSNum.round a) := by
  rcases h with rfl | rfl <;> simp

/-- The internal calculation at baseline `1/2`, mde `1/5`, significance `95`
(percent): the defaults do not fire and the result is `190`. -/
theorem internal_golden :
    calculateSampleSizeInternal ⟨fin (1/5), fin 95, fin (1/2)⟩ = some (fin 190) := by
  show sampleSizeEstimate (fin (1/2)) (fin (1/5)) (JSNum.div (fin 95) (fin 100)) = some (fin 190)
  rw [JSNum.div_fin_fin _ (by norm_num : (100:ℝ) ≠ 0),
    show fin ((95:ℝ)/100) = fin (19/20) from by norm_num]
  exact sse_eval_golden

/-! ## Claims -/

/-- C1: the code's rounding step keeps two significant figures, not three:
`roundToSigFigs 12345 = 12000`, whereas the specification formula with
`digitsToKeep = 3` yields `12300`.  The one- and two-digit examples `87` and
`4` agree with the specification. -/
theorem claim_C1 :
    roundToSigFigs (fin 12345) = fin 12000 ∧ specRound3 12345 = 12300 ∧
    roundToSigFigs (fin 87) = fin 87 ∧ roundToSigFigs (fin 4) = fin 4 := by
  refine ⟨?_, ?_, ?_, ?_⟩
  · rw [rTSF_eval_core _ 12345 4 (floor_eq_of_bounds _ 12345 (by norm_num) (by norm_num))
      (by norm_num) (by norm_num) (by norm_num)]
    rw [show ⌊((12345:ℤ):ℝ) * (10:ℝ)^((1:ℤ)-((4:ℕ):ℤ)) + 1/2⌋ = (12:ℤ) from
      floor_eq_of_bounds _ 12 (by norm_num) (by norm_num)]
    rw [show ⌊((12:ℤ):ℝ) * (10:ℝ)^(((4:ℕ):ℤ)-1) + 1/2⌋ = (12000:ℤ) from
      floor_eq_of_bounds _ 12000 (by norm_num) (by norm_num)]
    norm_num
  · unfold specRound3
    rw [show ⌊(12345:ℝ) + 1/2⌋ = (12345:ℤ) from
      floor_eq_of_bounds _ 12345 (by norm_num) (by norm_num)]
    rw [show ⌊Real.log ((12345:ℤ):ℝ) / Real.log 10⌋ = ((4:ℕ):ℤ) from
      floor_log10_eq _ 4 (by norm_num) (by norm_num)]
    rw [show (3:ℤ) - ((4:ℕ):ℤ) - 1 = (-2:ℤ) from by norm_num]
    rw [show ⌊((12345:ℤ):ℝ) * (10:ℝ)^(-2:ℤ) + 1/2⌋ = (123:ℤ) from
      floor_eq_of_bounds _ 123 (by norm_num) (by norm_num)]
    rw [show ⌊((123:ℤ):ℝ) / (10:ℝ)^(-2:ℤ) + 1/2⌋ = (12300:ℤ) from
      floor_eq_of_bounds _ 12300 (by norm_num) (by norm_num)]
    norm_num
  · rw [rTSF_eval_core _ 87 1 (floor_eq_of_bounds _ 87 (by norm_num) (by norm_num))
      (by norm_num) (by norm_num) (by norm_num)]
    rw [show ⌊((87:ℤ):ℝ) * (10:ℝ)^((1:ℤ)-((1:ℕ):ℤ)) + 1/2⌋ = (87:ℤ) from
      floor_eq_of_bounds _ 87 (by norm_num) (by norm_num)]
    rw [show ⌊((87:ℤ):ℝ) * (10:ℝ)^(((1:ℕ):ℤ)-1) + 1/2⌋ = (87:ℤ) from
      floor_eq_of_bounds _ 87 (by norm_num) (by norm_num)]
    norm_num
  · rw [rTSF_eval_core _ 4 0 (floor_eq_of_bounds _ 4 (by norm_num) (by norm_num))
      (by norm_num) (by norm_num) (by norm_num)]
    rw [show ⌊((4:ℤ):ℝ) * (10:ℝ)^((1:ℤ)-((0:ℕ):ℤ)) + 1/2⌋ = (40:ℤ) from
      floor_eq_of_bounds _ 40 (by norm_num) (by norm_num)]
    rw [show ⌊((40:ℤ):ℝ) * (10:ℝ)^(((0:ℕ):ℤ)-1) + 1/2⌋ = (4:ℤ) from
      floor_eq_of_bounds _ 4 (by norm_num) (by norm_num)]
    norm_num

/-- C2 (amended): for all inputs the estimator returns `null`, `NaN` (when the
validated estimate rounds to `0`, i.e. lies in `[0, 1/2)`), or a finite
nonnegative number; infinities and finite negatives are never returned. -/
theorem claim_C2 (c e sd : JSNum) :
    sampleSizeEstimate c e sd = none ∨
    sampleSizeEstimate c e sd = some JSNum.nan ∨
    ∃ y : ℝ, 0 ≤ y ∧ sampleSizeEstimate c e sd = some (fin y) := by
  rcases sse_cases c e sd with h | ⟨x, hx, heq⟩
  · exact Or.inl h
  · rcases sse_some_form c e sd _ heq with hnan | ⟨y, hy, hv⟩
    · right; left
      rw [heq, hnan]
    · right; right
      exact ⟨y, by linarith, by rw [heq, hv]⟩

/-- C2, counterexample to the claim as stated: at baseline `1/2`, effect `1/5`,
significance level `0`, the estimator returns the number `NaN` — neither the
`null` signal nor a finite nonnegative real — because the validated estimate
`0` reaches the rounding step. -/
theorem claim_C2_counterexample :
    sampleSizeEstimate (fin (1/2)) (fin (1/5)) (fin 0) = some JSNum.nan ∧
    ¬ JSNum.isFinite JSNum.nan :=
  ⟨sse_eval_sig0, by simp⟩

/-- C3 (amended): a baseline rate `≤ 0` or `≥ 1` yields `null` whenever the
up-shifted arm's variance `c*(1-c) + c3*(1-c3)` is negative (its square root is
`NaN`, the `>=` against `NaN` fails, and `NaN` is selected). -/
theorem claim_C3 (c e sd : ℝ) (_hc : c ≤ 0 ∨ 1 ≤ c)
    (hv2 : c*(1-c) + (c + c*e)*(1 - (c + c*e)) < 0) :
    sampleSizeEstimate (fin c) (fin e) (fin sd) = none := by
  have h2 : sampleEstimate2 (fin c) (fin e) (fin sd) = JSNum.nan := by
    show estFrom (fin sd) (varianceOf (fin c) (armUp (fin c) (fin e)))
      (theta (fin c) (fin e)) = _
    rw [show varianceOf (fin c) (armUp (fin c) (fin e)) =
        fin (c*(1-c) + (c + c*e)*(1 - (c + c*e))) from rfl]
    exact estFrom_neg_v _ _ hv2
  exact sse_none_of_not_numeric
    (by rw [selected_of_est2_nan h2]; exact JSNum.not_isNumeric_nan)

theorem claim_C3_witness :
    ((3/2:ℝ) ≤ 0 ∨ (1:ℝ) ≤ 3/2) ∧
    sampleSizeEstimate (fin (3/2)) (fin (1/5)) (fin (19/20)) = none :=
  ⟨Or.inr (by norm_num),
    claim_C3 (3/2) (1/5) (19/20) (Or.inr (by norm_num)) (by norm_num)⟩

/-- C3, counterexample to the claim as stated: baseline `1` (which is `≥ 1`)
with effect `-1/2` and significance `0.95` returns the positive number `1`, not
`null`: the down-shifted arm is `NaN`, loses the `>=` comparison, and the valid
up-shifted candidate is selected. -/
theorem claim_C3_counterexample :
    sampleSizeEstimate (fin 1) (fin (-(1/2))) (fin (19/20)) = some (fin 1) ∧ (1:ℝ) ≤ 1 ∧
    (0:ℝ) < 1 :=
  ⟨sse_eval_baseline_one, le_refl 1, by norm_num⟩

/-- C4: zero relative effect with a baseline in `(0,1)` always returns `null`,
for every real significance level. -/
theorem claim_C4 (c sd : ℝ) (hc0 : 0 < c) (hc1 : c < 1) :
    sampleSizeEstimate (fin c) (fin 0) (fin sd) = none :=
  sse_zero_effect c sd hc0 hc1

theorem claim_C4_witness :
    (0:ℝ) < 1/2 ∧ (1/2:ℝ) < 1 ∧
    sampleSizeEstimate (fin (1/2)) (fin 0) (fin (19/20)) = none :=
  ⟨by norm_num, by norm_num, claim_C4 (1/2) (19/20) (by norm_num) (by norm_num)⟩

/-- C5 (amended): when both candidate estimates are finite and the result is
not `null`, the selected pre-rounding estimate equals
`max(|sampleEstimate1|, |sampleEstimate2|)`. -/
theorem claim_C5 (c e sd : JSNum) (x1 x2 : ℝ)
    (h1 : sampleEstimate1 c e sd = fin x1) (h2 : sampleEstimate2 c e sd = fin x2)
    (hne : sampleSizeEstimate c e sd ≠ none) :
    selectedEstimate c e sd = fin (max |x1| |x2|) := by
  rcases le_or_lt |x2| |x1| with hle | hlt
  · have hsel := selected_fin_left h1 h2 hle
    have hx1 : 0 ≤ x1 := sel_nonneg_of_ne_none hne hsel
    rw [hsel, max_eq_left hle, abs_of_nonneg hx1]
  · have hsel := selected_fin_right h1 h2 hlt
    have hx2 : 0 ≤ x2 := sel_nonneg_of_ne_none hne hsel
    rw [hsel, max_eq_right hlt.le, abs_of_nonneg hx2]

theorem claim_C5_witness :
    selectedEstimate (fin (1/2)) (fin (1/5)) (fin (19/20)) =
      fin (max |(2793/10) * Real.log 2| |(2793/10) * Real.log 2|) :=
  claim_C5 _ _ _ _ _ est1_eval_golden est2_eval_golden (by rw [sse_eval_golden]; simp)

/-- C5, counterexample to the claim as stated: at the valid input baseline
`1/10`, effect `6`, significance `0.95` the result is not `null`, yet
`max(|sampleEstimate1|, |sampleEstimate2|)` is `NaN` (the down-shifted arm has
negative variance) while the selected estimate is the finite `sampleEstimate2`. -/
theorem claim_C5_counterexample :
    sampleSizeEstimate (fin (1/10)) (fin 6) (fin (19/20)) ≠ none ∧
    jsMax (JSNum.abs (sampleEstimate1 (fin (1/10)) (fin 6) (fin (19/20))))
          (JSNum.abs (sampleEstimate2 (fin (1/10)) (fin 6) (fin (19/20)))) = JSNum.nan ∧
    selectedEstimate (fin (1/10)) (fin 6) (fin (19/20)) ≠ JSNum.nan := by
  refine ⟨sse_eval_bigeffect, ?_, ?_⟩
  · rw [est1_eval_bigeffect]
    simp
  · obtain ⟨y, hy, h2⟩ := est2_eval_bigeffect
    rw [selected_of_est1_nan est1_eval_bigeffect, h2]
    simp

/-- C6: with baseline `1/10` and significance `0.95` fixed, the effect `6`
yields a positive sample size while the smaller-magnitude effect `-59/10`
yields `null` (its up-shifted arm has negative variance and `NaN` wins the
selection), contradicting monotonicity with a `null` away from the zero
boundary. -/
theorem claim_C6 :
    sampleSizeEstimate (fin (1/10)) (fin (-(59/10))) (fin (19/20)) = none ∧
    sampleSizeEstimate (fin (1/10)) (fin 6) (fin (19/20)) ≠ none ∧
    |(-(59/10):ℝ)| < |(6:ℝ)| := by
  refine ⟨sse_eval_negeffect, sse_eval_bigeffect, ?_⟩
  rw [abs_neg, abs_of_pos (by norm_num : (0:ℝ) < 59/10),
    abs_of_pos (by norm_num : (0:ℝ) < 6)]
  norm_num

/-- C7: the estimator is total — every input (finite, infinite or `NaN`)
produces a value, `null` or a number; in particular `NaN` inputs produce
`null`, never an exception. -/
theorem claim_C7 :
    (∀ c e sd : JSNum, sampleSizeEstimate c e sd = none ∨
      ∃ v, sampleSizeEstimate c e sd = some v) ∧
    (∀ e sd : JSNum, sampleSizeEstimate JSNum.nan e sd = none) := by
  constructor
  · intro c e sd
    cases h : sampleSizeEstimate c e sd with
    | none => exact Or.inl rfl
    | some v => exact Or.inr ⟨v, rfl⟩
  · exact sse_nan_conversion

/-- C8: the rounding step is idempotent on every value it produces from a
positive input. -/
theorem claim_C8 (x : ℝ) (hx : 0 < x) :
    roundToSigFigs (roundToSigFigs (fin x)) = roundToSigFigs (fin x) :=
  rTSF_idem x hx

theorem claim_C8_witness :
    (0:ℝ) < 87 ∧ roundToSigFigs (roundToSigFigs (fin 87)) = roundToSigFigs (fin 87) :=
  ⟨by norm_num, claim_C8 87 (by norm_num)⟩

/-- C9: the estimator is deterministic — two results of the same call are
equal. -/
theorem claim_C9 (c e sd : JSNum) (r1 r2 : Option JSNum)
    (h1 : sampleSizeEstimate c e sd = r1) (h2 : sampleSizeEstimate c e sd = r2) :
    r1 = r2 :=
  h1.symm.trans h2

theorem claim_C9_witness : (none : Option JSNum) = none :=
  claim_C9 JSNum.nan (fin 0) (fin 0) none none
    (sse_nan_conversion (fin 0) (fin 0)) (sse_nan_conversion (fin 0) (fin 0))

/-- C10 (amended): a non-empty frequency that is none of monthly/weekly/daily
(case-insensitively) still produces `success: true` when the numeric inputs
give a valid sample size, with `visitorsCountDays` stuck at `0` and
non-finite `daysToRun`, `weeksToRun` and `monthsToRun` (the division by the
zero visitors-per-day-per-variant figure is unguarded). -/
theorem claim_C10 (brP mdeP sigP varP visP : JSNum) (freq : String) (v : JSNum)
    (hne : freq ≠ "") (hm : jsToLower freq ≠ "monthly") (hw : jsToLower freq ≠ "weekly")
    (hd : jsToLower freq ≠ "daily")
    (hint : calculateSampleSizeInternal
      ⟨jsOrDefault mdeP (fin (1/20)), jsOrDefault sigP (fin 95),
        jsOrDefault brP (fin (1/10))⟩ = some v) :
    ∃ d : SampleSizeData,
      calculateSampleSize brP mdeP sigP varP visP freq = CalcResult.success d ∧
      d.visitorsCountDays = fin 0 ∧ ¬ JSNum.isFinite d.daysToRun ∧
      ¬ JSNum.isFinite d.weeksToRun ∧ ¬ JSNum.isFinite d.monthsToRun := by
  obtain ⟨hv0, hvn⟩ := jsOrDefault_ne_zero_nan varP (fin 2) (by simp) (by simp)
  have hvform : v = JSNum.nan ∨ ∃ y : ℝ, 1 ≤ y ∧ v = fin y :=
    sse_some_form _ _ _ v hint
  have hzero : JSNum.div (fin 0) (jsOrDefault varP (fin 2)) = fin 0 :=
    div_zero_of_ne _ hv0 hvn
  have hdays := daysToRun_cases v (jsOrDefault varP (fin 2)) hvform hvn
  simp only [calculateSampleSize, hint, if_neg hne, if_neg hm, if_neg hw, if_neg hd, hzero]
  refine ⟨_, rfl, ?_, ?_, ?_, ?_⟩
  · rw [JSNum.round_fin, floor_eq_of_bounds _ 0 (by norm_num) (by norm_num)]
    norm_num
  · exact round_not_finite hdays
  · exact round_not_finite (div_nan_or_inf hdays (by norm_num))
  · exact round_not_finite (div_nan_or_inf hdays (by norm_num))

theorem claim_C10_witness :
    ∃ d : SampleSizeData,
      calculateSampleSize (fin (1/2)) (fin (1/5)) (fin 95) (fin 2) (fin 30) "yearly" =
        CalcResult.success d ∧
      d.visitorsCountDays = fin 0 ∧ ¬ JSNum.isFinite d.daysToRun ∧
      ¬ JSNum.isFinite d.weeksToRun ∧ ¬ JSNum.isFinite d.monthsToRun :=
  claim_C10 _ _ _ _ _ _ (fin 190) (by decide) (by decide) (by decide) (by decide)
    (by rw [jsOrDefault_fin_ne (by norm_num : (1/5:ℝ) ≠ 0),
          jsOrDefault_fin_ne (by norm_num : (95:ℝ) ≠ 0),
          jsOrDefault_fin_ne (by norm_num : (1/2:ℝ) ≠ 0)]
        exact internal_golden)

/-- C10, counterexample to the claim as stated: the empty frequency string is
not monthly/weekly/daily, yet it falls back to the `monthly` default, so with
30 visitors per month `visitorsCountDays` is `1` (not `0`) and `daysToRun` is
the finite `380`. -/
theorem claim_C10_counterexample :
    calculateSampleSize (fin (1/2)) (fin (1/5)) (fin 95) (fin 2) (fin 30) "" =
      CalcResult.success
        ⟨fin 190, fin 380, fin 380, fin 54, fin 13, fin 1, fin 30, "Monthly", fin 1,
          fin (1/2), fin (1/5), fin 95, fin 2⟩ ∧
    (fin 1 : JSNum) ≠ fin 0 ∧ JSNum.isFinite (fin (380:ℝ)) := by
  have h1 := jsOrDefault_fin_ne (show (1/2:ℝ) ≠ 0 by norm_num) (fin (1/10))
  have h2 := jsOrDefault_fin_ne (show (1/5:ℝ) ≠ 0 by norm_num) (fin (1/20))
  have h3 := jsOrDefault_fin_ne (show (95:ℝ) ≠ 0 by norm_num) (fin 95)
  have h4 := jsOrDefault_fin_ne (show (2:ℝ) ≠ 0 by norm_num) (fin 2)
  have h5 := jsOrDefault_fin_ne (show (30:ℝ) ≠ 0 by norm_num) (fin 10000)
  have hvcd : JSNum.div (fin 30) (fin 30) = fin 1 := by
    rw [JSNum.div_fin_fin _ (by norm_num : (30:ℝ) ≠ 0)]
    norm_num
  have hpv : JSNum.div (fin 1) (fin 2) = fin (1/2) :=
    JSNum.div_fin_fin _ (by norm_num : (2:ℝ) ≠ 0)
  have hadj : mul (fin 190) (fin 1) = fin 190 := by
    rw [JSNum.mul_fin_fin, mul_one]
  have htot : mul (fin 190) (fin 2) = fin 380 := by
    rw [JSNum.mul_fin_fin]
    norm_num
  have hdtr : JSNum.div (fin 190) (fin (1/2)) = fin 380 := by
    rw [JSNum.div_fin_fin _ (by norm_num : (1/2:ℝ) ≠ 0)]
    norm_num
  have hwk : JSNum.div (fin 380) (fin 7) = fin (380/7) :=
    JSNum.div_fin_fin _ (by norm_num)
  have hmo : JSNum.div (fin 380) (fin 30) = fin (380/30) :=
    JSNum.div_fin_fin _ (by norm_num)
  have hr380 : JSNum.round (fin 380) = fin 380 := by
    rw [JSNum.round_fin, floor_eq_of_bounds _ 380 (by norm_num) (by norm_num)]
    norm_num
  have hr1 : JSNum.round (fin 1) = fin 1 := by
    rw [JSNum.round_fin, floor_eq_of_bounds _ 1 (by norm_num) (by norm_num)]
    norm_num
  have hr30 : JSNum.round (fin 30) = fin 30 := by
    rw [JSNum.round_fin, floor_eq_of_bounds _ 30 (by norm_num) (by norm_num)]
    norm_num
  have hrwk : JSNum.round (fin (380/7)) = fin 54 := by
    rw [JSNum.round_fin, floor_eq_of_bounds _ 54 (by norm_num) (by norm_num)]
    norm_num
  have hrmo : JSNum.round (fin (380/30)) = fin 13 := by
    rw [JSNum.round_fin, floor_eq_of_bounds _ 13 (by norm_num) (by norm_num)]
    norm_num
  have hcap : jsCapitalize "monthly" = "Monthly" := by decide
  have hlow : jsToLower "monthly" = "monthly" := by decide
  refine ⟨?_, by simp, by simp⟩
  classical
  simp only [calculateSampleSize, h1, h2, h3, h4, h5, internal_golden, if_true,
    eq_self_iff_true, hlow, hvcd, hpv, hadj, htot, hdtr, hwk, hmo, hr380, hr1, hr30,
    hrwk, hrmo, hcap]
  rw [if_neg (show ¬ jsGt (fin 2) (fin 2) from fun h => lt_irrefl (2:ℝ) h)]
  simp only [hadj, htot, hdtr, hwk, hmo, hr380, hr1, hrwk, hrmo]
